import Mathlib

/-!
Verification of the battery-simulation feature/benefit pipeline.

Shallow embedding of the core modules of the repository:

* `TsAgg`       — 2_ml/extraction/timeseries_aggregations.py
* `FeatStore`   — 2_ml/extraction/feature_store.py
* `Pipeline`    — 2_ml/extraction/pipeline.py (the incremental-skip logic)
* `BenefitCalc` — scripts/benefit_calculator.py
* `Training`    — 2_ml/training/train_models.py (the train/test split logic)

Conventions: Python/pandas floats are modelled as `ℚ`; a possibly-NaN float
(and the result of a computation whose exception is converted to NaN) is
`Option ℚ` with `none` standing for NaN.  Library numerics that need real
square roots (pandas `std`, `skew`, `kurtosis`) are abstracted as function
parameters; everything the repository itself computes is defined concretely.
-/

namespace TsAgg

/-- Mean of a pandas Series: NaN for an empty series, sum/length otherwise. -/
def meanOpt (s : List ℚ) : Option ℚ :=
  if s = [] then none else some (s.sum / (s.length : ℚ))

/-- Maximum of a pandas Series: NaN for an empty series. -/
def maxOpt : List ℚ → Option ℚ
  | [] => none
  | x :: xs => some (xs.foldl max x)

/-- Minimum of a pandas Series: NaN for an empty series. -/
def minOpt : List ℚ → Option ℚ
  | [] => none
  | x :: xs => some (xs.foldl min x)

/-- Pandas truth test `m > 0` on a possibly-NaN scalar: NaN compares False. -/
def gtZeroOpt : Option ℚ → Bool
  | none => false
  | some q => decide (0 < q)

/-- Division lifted to possibly-NaN scalars. -/
def optDiv : Option ℚ → Option ℚ → Option ℚ
  | some a, some b => some (a / b)
  | _, _ => none

/-- Subtraction lifted to possibly-NaN scalars. -/
def optSub : Option ℚ → Option ℚ → Option ℚ
  | some a, some b => some (a - b)
  | _, _ => none

/-- Mean of a boolean pandas Series `(s op x).mean()`: the fraction of elements
satisfying the predicate; NaN when the series is empty. -/
def fracWhere (p : ℚ → Bool) (s : List ℚ) : Option ℚ :=
  if s = [] then none else some ((s.countP p : ℚ) / (s.length : ℚ))

/-- Consecutive absolute differences, `s.diff().abs()` with the leading NaN
dropped (pandas `sum` skips it and comparisons with it are False). -/
def diffAbs (s : List ℚ) : List ℚ :=
  (s.zip s.tail).map (fun ab => |ab.2 - ab.1|)

/-- Sample variance with ddof = 1 (`pandas var`): NaN unless length ≥ 2. -/
def varQ (s : List ℚ) : Option ℚ :=
  if 2 ≤ s.length then
    some (((s.map (fun x => (x - s.sum / (s.length : ℚ)) ^ 2)).sum) / ((s.length : ℚ) - 1))
  else none

/-- Median of a pandas Series (average of the two middle elements when the
length is even); NaN for an empty series. -/
def medianQ (s : List ℚ) : Option ℚ :=
  if s = [] then none
  else
    let sorted := s.insertionSort (· ≤ ·)
    let n := s.length
    if n % 2 = 1 then sorted.getD (n / 2) 0
    else some ((sorted.getD (n / 2 - 1) 0 + sorted.getD (n / 2) 0) / 2)

/-- The p-th percentile with linear interpolation (`np.percentile`); NaN for an
empty series or a percentile outside 0–100 (numpy raises, the caller converts
the exception to NaN). -/
def percentileQ (s : List ℚ) (p : ℤ) : Option ℚ :=
  if s = [] ∨ p < 0 ∨ 100 < p then none
  else
    let sorted := s.insertionSort (· ≤ ·)
    let h : ℚ := (p : ℚ) / 100 * ((s.length : ℚ) - 1)
    let i : ℕ := (⌊h⌋).toNat
    let lo := sorted.getD i 0
    let hi := sorted.getD (i + 1) lo
    some (lo + (h - (⌊h⌋ : ℚ)) * (hi - lo))

/-- Registry STAT_FUNCTIONS: name → function on the (already dropna-ed)
series.  `pdStd`, `pdSkew`, `pdKurt` are the pandas implementations of the
statistics whose value involves real square roots; they are abstracted as
parameters. -/
def STAT_FUNCTIONS (pdStd pdSkew pdKurt : List ℚ → Option ℚ) :
    List (String × (List ℚ → Option ℚ)) :=
  [ ("mean", meanOpt),
    ("std", pdStd),
    ("min", minOpt),
    ("max", maxOpt),
    ("sum", fun s => some s.sum),
    ("median", medianQ),
    ("var", varQ),
    ("skew", pdSkew),
    ("kurtosis", pdKurt) ]

/-- Custom aggregation `peak_to_mean`: `s.max() / s.mean() if s.mean() > 0 else 0`. -/
def agg_peak_to_mean (s : List ℚ) : Option ℚ :=
  if gtZeroOpt (meanOpt s) then optDiv (maxOpt s) (meanOpt s) else some 0

/-- Custom aggregation `cv`: `s.std() / s.mean() if s.mean() > 0 else 0`. -/
def agg_cv (pdStd : List ℚ → Option ℚ) (s : List ℚ) : Option ℚ :=
  if gtZeroOpt (meanOpt s) then optDiv (pdStd s) (meanOpt s) else some 0

/-- Registry CUSTOM_COLUMN_AGGREGATIONS: per-column custom aggregations, one
entry per source lambda, with the source's guard semantics preserved. -/
def CUSTOM_COLUMN_AGGREGATIONS (pdStd pdSkew : List ℚ → Option ℚ) :
    List (String × (List ℚ → Option ℚ)) :=
  [ ("peak_to_mean", agg_peak_to_mean),
    ("cv", agg_cv pdStd),
    ("iqr", fun s => optSub (percentileQ s 75) (percentileQ s 25)),
    ("skewness", fun s => if 0 < s.length then pdSkew s else some 0),
    ("time_below_20pct", fracWhere (fun x => decide (x < 20))),
    ("time_above_80pct", fracWhere (fun x => decide (80 < x))),
    ("cycles_equivalent", fun s => some ((diffAbs s).sum / 200)),
    ("range", fun s => optSub (maxOpt s) (minOpt s)),
    ("charge_energy", fun s =>
      some (if s.any (fun x => decide (0 < x)) then (s.filter (fun x => decide (0 < x))).sum else 0)),
    ("discharge_energy", fun s =>
      some (if s.any (fun x => decide (x < 0)) then ((s.filter (fun x => decide (x < 0))).map (|·|)).sum else 0)),
    ("reversals", fun s => some (((diffAbs s).countP (fun d => decide ((1 : ℚ)/10 < d)) : ℚ))),
    ("utilization", fracWhere (fun x => decide ((1 : ℚ)/100 < |x|))),
    ("peak_to_average", agg_peak_to_mean),
    ("export_ratio", fracWhere (fun x => decide (0 < x))),
    ("capacity_factor", fun s =>
      if gtZeroOpt (maxOpt s) then optDiv (meanOpt s) (maxOpt s) else some 0),
    ("zero_generation_ratio", fracWhere (fun x => decide (x = 0))),
    ("price_spread", fun s => optSub (maxOpt s) (minOpt s)),
    ("price_volatility", agg_cv pdStd) ]

/-- Timeseries table: association list column-name → cells (a cell is
`none` when the stored value is NaN, so `dropna` is `filterMap id`). -/
def TsDF : Type := List (String × List (Option ℚ))

/-- Per-column spec from the extraction config. -/
structure ColSpec where
  stats : List String
  percentiles : List ℤ
  custom : List String
  skip_if_empty : Bool

/-- Embedding of extract_column_features: per-column feature extraction.
Returns the ordered feature dictionary; a `none` value models np.nan (also
the value stored when the underlying computation raised). -/
def extract_column_features (pdStd pdSkew pdKurt : List ℚ → Option ℚ)
    (df : TsDF) (column : String) (spec : ColSpec) (pre : String) :
    List (String × Option ℚ) :=
  if (df.map Prod.fst).contains column then
    let series := ((df.lookup column).getD []).filterMap id
    if series.length = 0 ∧ spec.skip_if_empty then []
    else
      let fp := pre ++ column
      (spec.stats.filterMap fun st =>
        ((STAT_FUNCTIONS pdStd pdSkew pdKurt).lookup st).map fun f => (fp ++ "_" ++ st, f series))
      ++ spec.percentiles.map (fun p => (fp ++ "_p" ++ toString p, percentileQ series p))
      ++ (spec.custom.filterMap fun nm =>
        ((CUSTOM_COLUMN_AGGREGATIONS pdStd pdSkew).lookup nm).map fun f => (fp ++ "_" ++ nm, f series))
  else []

end TsAgg

namespace FeatStore

/-- One row of the feature matrix.  Rows written by the pipeline always carry
their configuration id (the code's `"config_id" in columns` guards are
therefore identically true); the remaining feature cells are an opaque
payload `α`. -/
structure FRow (α : Type) where
  config_id : Nat
  payload : α
deriving DecidableEq

/-- Durable state of the FeatureStore: the Parquet feature matrix and the
JSON processed-ids ledger (the metadata sidecar carries no claim-relevant
state and is not modelled). -/
structure StoreState (α : Type) where
  matrix : List (FRow α)
  processed : List Nat
deriving DecidableEq

/-- Embedding of get_processed_configs: the set of already processed
config_ids (membership in the ledger). -/
def get_processed_configs (s : StoreState α) : List Nat :=
  s.processed

/-- Embedding of mark_processed: union the given ids into the ledger. -/
def mark_processed (s : StoreState α) (config_ids : List Nat) : StoreState α :=
  { s with processed := s.processed ∪ config_ids }

/-- Embedding of append_features: drop existing rows whose config_id occurs in
the new batch, append the batch, then mark the batch's ids processed. -/
def append_features (s : StoreState α) (new_features : List (FRow α)) : StoreState α :=
  let existing := s.matrix
  let combined :=
    if existing.isEmpty then new_features
    else existing.filter (fun r => !((new_features.map FRow.config_id).contains r.config_id))
      ++ new_features
  mark_processed { s with matrix := combined } (new_features.map FRow.config_id)

/-- Embedding of clear: delete the matrix file and the ledger (a re-load then
yields an empty table and an empty processed set). -/
def clear (_ : StoreState α) : StoreState α :=
  { matrix := [], processed := [] }

/-- Folding append_features over a sequence of batches. -/
def appendMany (s : StoreState α) (batches : List (List (FRow α))) : StoreState α :=
  batches.foldl append_features s

/-- Identifier columns excluded from ML features. -/
def ID_COLS : List String :=
  ["config_id", "client_name", "run_name", "config_name"]

/-- Columns excluded by get_ml_ready_data: identifiers, the named target
column, and the caller-supplied exclude_cols. -/
def ml_exclude (target_col : String) (exclude_cols : List String) : List String :=
  ID_COLS ++ [target_col] ++ exclude_cols

/-- Feature columns kept by get_ml_ready_data, in stored column order. -/
def ml_feature_cols (df : List (String × List ℚ)) (target_col : String)
    (exclude_cols : List String) : List String :=
  (df.map Prod.fst).filter (fun c => !((ml_exclude target_col exclude_cols).contains c))

/-- Embedding of get_ml_ready_data over the stored matrix viewed columnwise
(association list column-name → cells).  `none` models the ValueError raised
on an empty store; otherwise the result is (X, y, feature_names) where `y` is
`none` when the target column is absent. -/
def get_ml_ready_data (df : List (String × List ℚ)) (target_col : String)
    (exclude_cols : List String) :
    Option (List (String × List ℚ) × Option (List ℚ) × List String) :=
  if df.isEmpty then none
  else
    some ((ml_feature_cols df target_col exclude_cols).filterMap
            (fun c => (df.lookup c).map (fun col => (c, col))),
          df.lookup target_col,
          ml_feature_cols df target_col exclude_cols)

theorem mem_processed_append_left (s : StoreState α) (new : List (FRow α)) (x : Nat)
    (hx : x ∈ s.processed) : x ∈ (append_features s new).processed := by
  simp only [append_features, mark_processed, List.mem_union_iff]
  exact Or.inl hx

theorem mem_processed_append_right (s : StoreState α) (new : List (FRow α)) (x : Nat)
    (hx : x ∈ new.map FRow.config_id) : x ∈ (append_features s new).processed := by
  simp only [append_features, mark_processed, List.mem_union_iff]
  exact Or.inr hx

theorem lookup_isSome_of_mem_keys (df : List (String × List ℚ)) (c : String)
    (h : c ∈ df.map Prod.fst) : (df.lookup c).isSome := by
  induction df with
  | nil => simp at h
  | cons hd tl ih =>
    by_cases hc : c = hd.1
    · simp [List.lookup, hc]
    · simp only [List.map_cons, List.mem_cons] at h
      rcases h with h | h
      · exact absurd h hc
      · have hbeq : (c == hd.1) = false := beq_eq_false_iff_ne.mpr hc
        obtain ⟨k, v⟩ := hd
        simp only [List.lookup] at hbeq ⊢
        rw [hbeq]
        exact ih h

theorem filterMap_lookup_keys (df : List (String × List ℚ)) (l : List String)
    (h : ∀ c ∈ l, c ∈ df.map Prod.fst) :
    (l.filterMap (fun c => (df.lookup c).map (fun col => (c, col)))).map Prod.fst = l := by
  induction l with
  | nil => simp
  | cons hd tl ih =>
    have hhd := lookup_isSome_of_mem_keys df hd (h hd (by simp))
    obtain ⟨v, hv⟩ := Option.isSome_iff_exists.mp hhd
    simp only [List.filterMap_cons, hv, Option.map_some]
    simpa using ih (fun c hc => h c (by simp [hc]))

theorem append_features_matrix (s : StoreState α) (new : List (FRow α)) :
    (append_features s new).matrix
      = if s.matrix.isEmpty then new
        else s.matrix.filter (fun r => !((new.map FRow.config_id).contains r.config_id))
          ++ new := rfl

theorem append_features_processed (s : StoreState α) (new : List (FRow α)) :
    (append_features s new).processed = s.processed ∪ new.map FRow.config_id := rfl

theorem mem_append_features_matrix (s : StoreState α) (new : List (FRow α)) (r : FRow α) :
    r ∈ (append_features s new).matrix
      ↔ (r ∈ new ∨ (r ∈ s.matrix ∧ r.config_id ∉ new.map FRow.config_id)) := by
  rw [append_features_matrix]
  by_cases hm : s.matrix.isEmpty = true
  · have hnil : s.matrix = [] := List.isEmpty_iff.mp hm
    simp [hm, hnil]
  · simp only [hm, Bool.false_eq_true, if_false, List.mem_append, List.mem_filter,
      Bool.not_eq_eq_eq_not, Bool.not_true]
    rw [or_comm]
    constructor
    · rintro (h | ⟨h1, h2⟩)
      · exact Or.inl h
      · refine Or.inr ⟨h1, ?_⟩
        simpa [List.elem_iff] using h2
    · rintro (h | ⟨h1, h2⟩)
      · exact Or.inl h
      · refine Or.inr ⟨h1, ?_⟩
        simpa [List.elem_iff] using h2

theorem nodup_ids_append_features (s : StoreState α) (new : List (FRow α))
    (h0 : (s.matrix.map FRow.config_id).Nodup) (h1 : (new.map FRow.config_id).Nodup) :
    ((append_features s new).matrix.map FRow.config_id).Nodup := by
  rw [append_features_matrix]
  by_cases hm : s.matrix.isEmpty = true
  · simp [hm, h1]
  · simp only [hm, Bool.false_eq_true, if_false, List.map_append]
    refine List.Nodup.append ?_ h1 ?_
    · exact h0.sublist ((List.filter_sublist s.matrix).map FRow.config_id)
    · intro x hx hx2
      obtain ⟨r, hr, hrx⟩ := List.mem_map.mp hx
      have hp := (List.mem_filter.mp hr).2
      simp only [Bool.not_eq_eq_eq_not, Bool.not_true] at hp
      rw [hrx] at hp
      simp only [List.contains] at hp
      rw [List.elem_iff.mpr hx2] at hp
      simp at hp

theorem nodup_ids_appendMany (s : StoreState α) (batches : List (List (FRow α)))
    (h0 : (s.matrix.map FRow.config_id).Nodup)
    (h : ∀ b ∈ batches, (b.map FRow.config_id).Nodup) :
    ((appendMany s batches).matrix.map FRow.config_id).Nodup := by
  induction batches generalizing s with
  | nil => exact h0
  | cons b bs ih =>
    exact ih (append_features s b)
      (nodup_ids_append_features s b h0 (h b (by simp)))
      (fun b2 hb2 => h b2 (by simp [hb2]))

end FeatStore

/-- C2 counterexample: a stored matrix containing a target_<kpi> column; the
call get_ml_ready_data("target") keeps that column among the returned
features, contradicting the claim that all target_<kpi> columns are
excluded. -/
theorem c2_counterexample :
    FeatStore.get_ml_ready_data
        [("config_id", [1]), ("battery_capacity_kwh", [10]),
         ("target_peak_shaving_benefit", [3]), ("target", [3])] "target" []
      = some ([("battery_capacity_kwh", [10]), ("target_peak_shaving_benefit", [3])],
              some [3], ["battery_capacity_kwh", "target_peak_shaving_benefit"])
    ∧ "target_peak_shaving_benefit"
        ∈ ["battery_capacity_kwh", "target_peak_shaving_benefit"] := by
  constructor
  · rfl
  · decide

/-- C2 (amended): get_ml_ready_data excludes the identifier columns, the named
target column and the explicitly passed exclude_cols — but not the other
target_<kpi> columns; the returned series is the target_col column (when
present), and the feature-name list is exactly the column order of the
returned feature table. -/
theorem c2_ml_ready_data_amended (df : List (String × List ℚ)) (target_col : String)
    (exclude_cols : List String) (h : df ≠ []) :
    ∃ X y fc, FeatStore.get_ml_ready_data df target_col exclude_cols = some (X, y, fc)
      ∧ X.map Prod.fst = fc
      ∧ y = df.lookup target_col
      ∧ ∀ c, c ∈ fc ↔ (c ∈ df.map Prod.fst ∧ c ∉ FeatStore.ID_COLS
          ∧ c ≠ target_col ∧ c ∉ exclude_cols) := by
  have hne : df.isEmpty = false := by simpa [List.isEmpty_iff] using h
  have key : ∀ x : String,
      ((!((FeatStore.ml_exclude target_col exclude_cols).contains x)) = true)
        ↔ (x ∉ FeatStore.ID_COLS ∧ x ≠ target_col ∧ x ∉ exclude_cols) := by
    intro x
    simp [FeatStore.ml_exclude, not_or]
  refine ⟨(FeatStore.ml_feature_cols df target_col exclude_cols).filterMap
      (fun c => (df.lookup c).map (fun col => (c, col))),
    df.lookup target_col,
    FeatStore.ml_feature_cols df target_col exclude_cols,
    ?_, ?_, rfl, ?_⟩
  · simp only [FeatStore.get_ml_ready_data, hne, Bool.false_eq_true, if_false]
  · exact FeatStore.filterMap_lookup_keys df _
      (fun c hc => (List.mem_filter.mp hc).1)
  · intro c
    rw [FeatStore.ml_feature_cols, List.mem_filter, key c]

/-- Witness for C2 (amended) at a concrete two-column matrix. -/
theorem c2_ml_ready_data_amended_witness :
    ∃ X y fc, FeatStore.get_ml_ready_data [("config_id", [1]), ("f", [2]), ("target", [3])]
        "target" [] = some (X, y, fc)
      ∧ X.map Prod.fst = fc
      ∧ y = List.lookup "target" [("config_id", [1]), ("f", [2]), ("target", [3])]
      ∧ ∀ c, c ∈ fc ↔ (c ∈ [("config_id", [1]), ("f", [2]), ("target", [3])].map Prod.fst
          ∧ c ∉ FeatStore.ID_COLS ∧ c ≠ "target" ∧ c ∉ ([] : List String)) :=
  c2_ml_ready_data_amended [("config_id", [1]), ("f", [2]), ("target", [3])] "target" []
    (by decide)

/-- C4 counterexample: a single append_features call whose batch holds two
rows with the same config_id leaves two rows for that id in the store, so the
at-most-one-row-per-config_id consequence fails for arbitrary batches. -/
theorem c4_counterexample :
    ¬ (((FeatStore.append_features (⟨[], []⟩ : FeatStore.StoreState Nat)
          [⟨1, 0⟩, ⟨1, 1⟩]).matrix.map FeatStore.FRow.config_id).Nodup) := by
  decide

/-- C4 (amended): append_features keeps exactly the batch rows plus the
existing rows whose config_id does not occur in the batch; and provided every
batch itself holds at most one row per config_id, any sequence of
append_features calls preserves at-most-one-row-per-config_id. -/
theorem c4_append_replace_amended (s : FeatStore.StoreState α)
    (batches : List (List (FeatStore.FRow α)))
    (h0 : (s.matrix.map FeatStore.FRow.config_id).Nodup)
    (h : ∀ b ∈ batches, (b.map FeatStore.FRow.config_id).Nodup) :
    (∀ new : List (FeatStore.FRow α), ∀ r : FeatStore.FRow α,
        r ∈ (FeatStore.append_features s new).matrix
          ↔ (r ∈ new ∨ (r ∈ s.matrix ∧ r.config_id ∉ new.map FeatStore.FRow.config_id)))
    ∧ ((FeatStore.appendMany s batches).matrix.map FeatStore.FRow.config_id).Nodup :=
  ⟨fun new r => FeatStore.mem_append_features_matrix s new r,
   FeatStore.nodup_ids_appendMany s batches h0 h⟩

/-- Witness for C4 (amended): a concrete store, a replacing batch and a fresh
batch. -/
theorem c4_append_replace_amended_witness :
    ((⟨1, 9⟩ : FeatStore.FRow Nat)
        ∈ (FeatStore.append_features (⟨[⟨1, 0⟩], []⟩ : FeatStore.StoreState Nat) [⟨1, 9⟩]).matrix)
    ∧ ((FeatStore.appendMany (⟨[⟨1, 0⟩], []⟩ : FeatStore.StoreState Nat)
          [[⟨1, 5⟩], [⟨2, 7⟩]]).matrix.map FeatStore.FRow.config_id).Nodup :=
  ⟨((c4_append_replace_amended (⟨[⟨1, 0⟩], []⟩ : FeatStore.StoreState Nat)
        [[⟨1, 5⟩], [⟨2, 7⟩]] (by decide) (by decide)).1 [⟨1, 9⟩] ⟨1, 9⟩).mpr
      (Or.inl (by decide)),
   (c4_append_replace_amended (⟨[⟨1, 0⟩], []⟩ : FeatStore.StoreState Nat)
        [[⟨1, 5⟩], [⟨2, 7⟩]] (by decide) (by decide)).2⟩

/-- C9: immediately after append_features(batch), every config_id of the batch
is in get_processed_configs() — the ledger update happens inside the same
append operation — the processed set only grows across the call, and it is
emptied only by clear(). -/
theorem c9_ledger_coupled_with_append (s : FeatStore.StoreState α)
    (new : List (FeatStore.FRow α)) :
    (∀ id ∈ new.map FeatStore.FRow.config_id,
        id ∈ FeatStore.get_processed_configs (FeatStore.append_features s new))
    ∧ (∀ x ∈ FeatStore.get_processed_configs s,
        x ∈ FeatStore.get_processed_configs (FeatStore.append_features s new))
    ∧ FeatStore.get_processed_configs (FeatStore.clear s) = [] :=
  ⟨fun id hid => FeatStore.mem_processed_append_right s new id hid,
   fun x hx => FeatStore.mem_processed_append_left s new x hx,
   rfl⟩

/-- Witness for C9 at a concrete store and batch. -/
theorem c9_ledger_coupled_with_append_witness :
    (1 ∈ FeatStore.get_processed_configs
        (FeatStore.append_features (⟨[], [5]⟩ : FeatStore.StoreState Nat) [⟨1, 0⟩]))
    ∧ (5 ∈ FeatStore.get_processed_configs
        (FeatStore.append_features (⟨[], [5]⟩ : FeatStore.StoreState Nat) [⟨1, 0⟩])) :=
  ⟨(c9_ledger_coupled_with_append (⟨[], [5]⟩ : FeatStore.StoreState Nat) [⟨1, 0⟩]).1
      1 (by decide),
   (c9_ledger_coupled_with_append (⟨[], [5]⟩ : FeatStore.StoreState Nat) [⟨1, 0⟩]).2.1
      5 (by decide)⟩

namespace Pipeline

open FeatStore

/-- Batch loop of FeatureExtractionPipeline.run: accumulate one extracted row
per configuration, flush to the store whenever the accumulator reaches
batch_size, and flush the final partial batch.  `payload` abstracts the
per-configuration feature extraction (metadata, KPI and timeseries features);
the code always stores the configuration's own id in the row. -/
def runLoop (payload : Nat → α) (batch_size : Nat) :
    List Nat → List (FRow α) → StoreState α → StoreState α
  | [], batch, s => if batch.isEmpty then s else append_features s batch
  | id :: rest, batch, s =>
    if batch_size ≤ (batch ++ [FRow.mk id (payload id)]).length
    then runLoop payload batch_size rest [] (append_features s (batch ++ [FRow.mk id (payload id)]))
    else runLoop payload batch_size rest (batch ++ [FRow.mk id (payload id)]) s

/-- Configuration ids that remain to be processed: incremental mode skips the
ids already in the processed ledger. -/
def remainingIds (cfgIds : List Nat) (incremental : Bool) (s : StoreState α) : List Nat :=
  cfgIds.filter (fun id =>
    !((if incremental then get_processed_configs s else []).contains id))

/-- Embedding of FeatureExtractionPipeline.run: when no configurations remain
the store is returned unchanged (the code only rewrites the metadata sidecar,
which carries no claim-relevant state); otherwise the batch loop runs over
the remaining configurations. -/
def run (cfgIds : List Nat) (payload : Nat → α) (incremental : Bool)
    (batch_size : Nat) (s : StoreState α) : StoreState α :=
  if (remainingIds cfgIds incremental s).isEmpty then s
  else runLoop payload batch_size (remainingIds cfgIds incremental s) [] s

theorem runLoop_nil (payload : Nat → α) (bs : Nat) (batch : List (FRow α))
    (s : StoreState α) :
    runLoop payload bs [] batch s
      = if batch.isEmpty then s else append_features s batch := rfl

theorem runLoop_cons (payload : Nat → α) (bs : Nat) (id : Nat) (rest : List Nat)
    (batch : List (FRow α)) (s : StoreState α) :
    runLoop payload bs (id :: rest) batch s
      = if bs ≤ (batch ++ [FRow.mk id (payload id)]).length
        then runLoop payload bs rest [] (append_features s (batch ++ [FRow.mk id (payload id)]))
        else runLoop payload bs rest (batch ++ [FRow.mk id (payload id)]) s := rfl

theorem runLoop_processed_mono (payload : Nat → α) (bs : Nat) :
    ∀ (ids : List Nat) (batch : List (FRow α)) (s : StoreState α) (x : Nat),
      x ∈ s.processed → x ∈ (runLoop payload bs ids batch s).processed := by
  intro ids
  induction ids with
  | nil =>
    intro batch s x hx
    rw [runLoop_nil]
    by_cases hb : batch.isEmpty = true
    · rwa [if_pos hb]
    · rw [if_neg hb]
      exact mem_processed_append_left s batch x hx
  | cons id rest ih =>
    intro batch s x hx
    rw [runLoop_cons]
    by_cases hf : bs ≤ (batch ++ [FRow.mk id (payload id)]).length
    · rw [if_pos hf]
      exact ih [] _ x (mem_processed_append_left s _ x hx)
    · rw [if_neg hf]
      exact ih (batch ++ [FRow.mk id (payload id)]) s x hx

theorem runLoop_processes_all (payload : Nat → α) (bs : Nat) :
    ∀ (ids : List Nat) (batch : List (FRow α)) (s : StoreState α) (id : Nat),
      (id ∈ ids ∨ id ∈ batch.map FRow.config_id) →
      id ∈ (runLoop payload bs ids batch s).processed := by
  intro ids
  induction ids with
  | nil =>
    intro batch s id hid
    rcases hid with hid | hid
    · simp at hid
    · have hb : batch.isEmpty = false := by
        cases batch
        · simp at hid
        · rfl
      rw [runLoop_nil, if_neg (by simp [hb])]
      exact mem_processed_append_right s batch id hid
  | cons a rest ih =>
    intro batch s id hid
    have hid2 : id ∈ rest ∨ id ∈ (batch ++ [FRow.mk a (payload a)]).map FRow.config_id := by
      rcases hid with hid | hid
      · rcases List.mem_cons.mp hid with h | h
        · subst h
          exact Or.inr (by simp)
        · exact Or.inl h
      · refine Or.inr ?_
        rw [List.map_append]
        exact List.mem_append_left _ hid
    rw [runLoop_cons]
    by_cases hf : bs ≤ (batch ++ [FRow.mk a (payload a)]).length
    · rw [if_pos hf]
      rcases hid2 with h | h
      · exact ih [] _ id (Or.inl h)
      · exact runLoop_processed_mono payload bs rest [] _ id
          (mem_processed_append_right s _ id h)
    · rw [if_neg hf]
      exact ih _ s id hid2

theorem run_processes_all (cfgIds : List Nat) (payload : Nat → α) (inc : Bool)
    (bs : Nat) (s0 : StoreState α) :
    ∀ id ∈ cfgIds, id ∈ (run cfgIds payload inc bs s0).processed := by
  intro id hid
  unfold run
  by_cases hrem : (remainingIds cfgIds inc s0).isEmpty = true
  · rw [if_pos hrem]
    have hfil := List.isEmpty_iff.mp hrem
    rw [remainingIds, List.filter_eq_nil_iff] at hfil
    have hskip := hfil id hid
    cases inc with
    | true =>
      simp only [if_true, Bool.not_eq_true', Bool.not_eq_false] at hskip
      simpa [get_processed_configs, List.elem_iff] using hskip
    | false =>
      simp [get_processed_configs] at hskip
  · rw [if_neg hrem]
    by_cases hkeep : id ∈ remainingIds cfgIds inc s0
    · exact runLoop_processes_all payload bs _ [] s0 id (Or.inl hkeep)
    · cases inc with
      | false =>
        exact absurd (List.mem_filter.mpr ⟨hid, by simp⟩) hkeep
      | true =>
        by_cases hmem : id ∈ s0.processed
        · exact runLoop_processed_mono payload bs _ [] s0 id hmem
        · refine absurd (List.mem_filter.mpr ⟨hid, ?_⟩) hkeep
          simp [get_processed_configs, List.elem_iff, hmem]

end Pipeline

/-- C6: after one extraction run completes over a set of configuration ids, a
second run with incremental = true over the same inputs finds every id in the
processed ledger (so it processes zero configurations) and returns the store
— feature matrix included — unchanged. -/
theorem c6_incremental_second_run_noop (cfgIds : List Nat) (payload : Nat → α)
    (inc : Bool) (bs bs2 : Nat) (s0 : FeatStore.StoreState α) :
    (cfgIds.filter (fun id =>
        !((FeatStore.get_processed_configs
            (Pipeline.run cfgIds payload inc bs s0)).contains id)) = [])
    ∧ Pipeline.run cfgIds payload true bs2 (Pipeline.run cfgIds payload inc bs s0)
        = Pipeline.run cfgIds payload inc bs s0 := by
  have hall := Pipeline.run_processes_all cfgIds payload inc bs s0
  have hfil : cfgIds.filter (fun id =>
      !((FeatStore.get_processed_configs
          (Pipeline.run cfgIds payload inc bs s0)).contains id)) = [] := by
    rw [List.filter_eq_nil_iff]
    intro id hid
    simp [FeatStore.get_processed_configs, List.elem_iff, hall id hid]
  refine ⟨hfil, ?_⟩
  rw [Pipeline.run]
  have : Pipeline.remainingIds cfgIds true (Pipeline.run cfgIds payload inc bs s0) = [] := by
    simpa [Pipeline.remainingIds] using hfil
  simp [this]

namespace BenefitCalc

/-- One battery configuration row of a run, as read by the baseline queries. -/
structure BConfig where
  config_id : Nat
  config_name : String
  is_baseline : Bool
  battery_capacity_kwh : Option ℚ
deriving DecidableEq

/-- Ordering used by ORDER BY battery_capacity_kwh NULLS FIRST. -/
def capLE (a b : Option ℚ) : Bool :=
  match a, b with
  | none, _ => true
  | some _, none => false
  | some x, some y => decide (x ≤ y)

/-- ORDER BY ... LIMIT 1: the first row attaining the minimum of the sort key
(the engine leaves the order of key-ties unspecified; the embedding picks the
first minimal row in table order). -/
def selectFirstMin (le : α → α → Bool) : List α → Option α
  | [] => none
  | x :: xs => some (xs.foldl (fun b c => if le b c then b else c) x)

/-- SQL LOWER on a name, as a character list. -/
def lowerChars (s : String) : List Char :=
  s.toList.map Char.toLower

/-- Character-list prefix test (needle, hay). -/
def startsWithChars : List Char → List Char → Bool
  | [], _ => true
  | _ :: _, [] => false
  | a :: as, b :: bs => a == b && startsWithChars as bs

/-- Character-list substring test, for SQL LIKE '%w%'. -/
def charsContains (needle : List Char) : List Char → Bool
  | [] => needle.isEmpty
  | b :: bs => startsWithChars needle (b :: bs) || charsContains needle bs

/-- SQL LIKE pattern '%0_kwh%' on the lowercased name: a '0', one arbitrary
character, then "kwh", anywhere in the string (LIKE's '_' is a single-character
wildcard). -/
def like0AnyKwh : List Char → Bool
  | '0' :: _ :: 'k' :: 'w' :: 'h' :: _ => true
  | _ :: rest => like0AnyKwh rest
  | [] => false

/-- Name condition of the fallback query: LOWER(config_name) LIKE '%0kwh%'
OR LOWER(config_name) LIKE '%0_kwh%' OR LOWER(config_name) = '0kwh'. -/
def baselineNameMatch (config_name : String) : Bool :=
  charsContains "0kwh".toList (lowerChars config_name)
    || like0AnyKwh (lowerChars config_name)
    || (lowerChars config_name == "0kwh".toList)

/-- WHERE clause of the fallback query of get_baseline_for_run: capacity = 0,
capacity IS NULL, or the name condition. -/
def fallbackPred (c : BConfig) : Bool :=
  (c.battery_capacity_kwh == some 0) || (c.battery_capacity_kwh == none)
    || baselineNameMatch c.config_name

/-- Comparison by config_id (ORDER BY config_id of the first query). -/
def idLE (c d : BConfig) : Bool :=
  decide (c.config_id ≤ d.config_id)

/-- Comparison by capacity NULLS FIRST (ORDER BY of the fallback query). -/
def capOrder (c d : BConfig) : Bool :=
  capLE c.battery_capacity_kwh d.battery_capacity_kwh

/-- Embedding of BenefitCalculator.get_baseline_for_run over the run's
configuration rows: first the query for is_baseline = TRUE ordered by
config_id, then the fallback query for zero/absent capacity or a
0kwh-patterned name ordered by capacity NULLS FIRST. -/
def get_baseline_for_run (configs : List BConfig) : Option Nat :=
  match selectFirstMin idLE (configs.filter (fun c => c.is_baseline)) with
  | some c => some c.config_id
  | none => (selectFirstMin capOrder (configs.filter fallbackPred)).map
      (fun c => c.config_id)

/-- Vocabulary the SPEC claims for baseline-name matching (refinement
comparison target; the source's query knows only the 0kwh patterns). -/
def specBaselineVocab : List String :=
  ["0kwh", "0_kwh", "no_battery", "0_battery", "baseline", "no battery", "0"]

/-- Name rule following the spec's words: case-insensitive substring or
equality against the vocabulary. -/
def specNameMatch (config_name : String) : Bool :=
  specBaselineVocab.any (fun w =>
    charsContains w.toList (lowerChars config_name) || (lowerChars config_name == w.toList))

/-- Candidate rule following the spec's words: zero/absent capacity or a
vocabulary-matching name. -/
def specFallbackPred (c : BConfig) : Bool :=
  (c.battery_capacity_kwh == some 0) || (c.battery_capacity_kwh == none)
    || specNameMatch c.config_name

theorem selectFirstMin_eq_none (le : α → α → Bool) (l : List α) :
    selectFirstMin le l = none ↔ l = [] := by
  cases l <;> simp [selectFirstMin]

theorem foldl_min_mem (le : α → α → Bool) :
    ∀ (xs : List α) (x : α),
      xs.foldl (fun b c => if le b c then b else c) x = x
        ∨ xs.foldl (fun b c => if le b c then b else c) x ∈ xs := by
  intro xs
  induction xs with
  | nil => intro x; exact Or.inl rfl
  | cons c cs ih =>
    intro x
    simp only [List.foldl_cons]
    by_cases hc : le x c = true
    · rw [if_pos hc]
      rcases ih x with h | h
      · exact Or.inl h
      · exact Or.inr (List.mem_cons_of_mem c h)
    · rw [if_neg hc]
      rcases ih c with h | h
      · rw [h]
        exact Or.inr (List.mem_cons_self c cs)
      · exact Or.inr (List.mem_cons_of_mem c h)

theorem foldl_min_le (le : α → α → Bool)
    (htot : ∀ a b, le a b = true ∨ le b a = true)
    (htrans : ∀ a b c, le a b = true → le b c = true → le a c = true) :
    ∀ (xs : List α) (x : α),
      le (xs.foldl (fun b c => if le b c then b else c) x) x = true
        ∧ ∀ y ∈ xs, le (xs.foldl (fun b c => if le b c then b else c) x) y = true := by
  intro xs
  induction xs with
  | nil =>
    intro x
    refine ⟨?_, by simp⟩
    rcases htot x x with h | h <;> exact h
  | cons c cs ih =>
    intro x
    simp only [List.foldl_cons]
    by_cases hc : le x c = true
    · rw [if_pos hc]
      obtain ⟨h1, h2⟩ := ih x
      refine ⟨h1, ?_⟩
      intro y hy
      rcases List.mem_cons.mp hy with h | h
      · subst h
        exact htrans _ _ _ h1 hc
      · exact h2 y h
    · rw [if_neg hc]
      obtain ⟨h1, h2⟩ := ih c
      have hcx : le c x = true := by
        rcases htot x c with h | h
        · exact absurd h hc
        · exact h
      refine ⟨htrans _ _ _ h1 hcx, ?_⟩
      intro y hy
      rcases List.mem_cons.mp hy with h | h
      · subst h
        exact h1
      · exact h2 y h

theorem selectFirstMin_spec (le : α → α → Bool)
    (htot : ∀ a b, le a b = true ∨ le b a = true)
    (htrans : ∀ a b c, le a b = true → le b c = true → le a c = true)
    (l : List α) (m : α) (h : selectFirstMin le l = some m) :
    m ∈ l ∧ ∀ y ∈ l, le m y = true := by
  cases l with
  | nil => simp [selectFirstMin] at h
  | cons x xs =>
    simp only [selectFirstMin, Option.some_inj] at h
    subst h
    constructor
    · rcases foldl_min_mem le xs x with h | h
      · rw [h]
        exact List.mem_cons_self x xs
      · exact List.mem_cons_of_mem x h
    · intro y hy
      obtain ⟨h1, h2⟩ := foldl_min_le le htot htrans xs x
      rcases List.mem_cons.mp hy with h | h
      · subst h
        exact h1
      · exact h2 y h

theorem capLE_total (a b : Option ℚ) : capLE a b = true ∨ capLE b a = true := by
  cases a <;> cases b <;> simp [capLE]
  exact le_total _ _

theorem capLE_trans (a b c : Option ℚ) (h1 : capLE a b = true) (h2 : capLE b c = true) :
    capLE a c = true := by
  cases a <;> cases b <;> cases c <;> simp [capLE] at h1 h2 ⊢
  exact le_trans h1 h2

/-- Python value of a KPI as seen by calculate_benefits: a float, a bool
(False is the N/A sentinel), or a string.  A string carries the result of the
Python builtin float() on it (external numeric parsing): `none` when float()
raises, so a non-numeric string is `str none`. -/
inductive PyVal where
  | num (q : ℚ)
  | bool (b : Bool)
  | str (conv : Option ℚ)
deriving DecidableEq

/-- Python float(v): floats pass through, bools convert to 0/1, strings parse
per their recorded conversion; `none` models a raised ValueError/TypeError. -/
def pyFloat : PyVal → Option ℚ
  | .num q => some q
  | .bool b => some (if b then 1 else 0)
  | .str c => c

/-- Python `v is False`. -/
def isFalseVal : PyVal → Bool
  | .bool false => true
  | _ => false

/-- One entry of BENEFIT_DEFINITIONS. -/
structure BenefitDef where
  is_composite : Bool
  baseline_kpi : Option String
  component_kpis : List String
  calculation : String
  unit : String
deriving DecidableEq

/-- The three fixed benefit definitions of benefit_calculator.py. -/
def BENEFIT_DEFINITIONS : List (String × BenefitDef) :=
  [ ("peak_shaving_benefit",
      ⟨false, some "annual_total_grid_fee_cost_ic", [], "baseline - battery", "EUR/year"⟩),
    ("energy_procurement_optimization",
      ⟨false, some "annual_total_energy_trade_cost_da", [], "baseline - battery", "EUR/year"⟩),
    ("trading_revenue",
      ⟨true, none,
        ["annual_total_energy_trade_cost_ia", "annual_total_energy_trade_cost_ic"],
        "baseline - battery", "EUR/year"⟩) ]

/-- Composite-benefit loop of calculate_benefits: walk the component KPIs,
break to NaN (`none`) on the first missing/False/non-convertible value on
either side, otherwise accumulate the per-component difference. -/
def compositeLoop (calculation : String) (baseline_kpis battery_kpis : List (String × PyVal)) :
    List String → ℚ → Option ℚ
  | [], acc => some acc
  | k :: rest, acc =>
    match baseline_kpis.lookup k, battery_kpis.lookup k with
    | some bv, some tv =>
      if isFalseVal bv || isFalseVal tv then none
      else
        match pyFloat bv, pyFloat tv with
        | some b, some t =>
          if calculation = "baseline - battery" then
            compositeLoop calculation baseline_kpis battery_kpis rest (acc + (b - t))
          else if calculation = "battery - baseline" then
            compositeLoop calculation baseline_kpis battery_kpis rest (acc + (t - b))
          else
            compositeLoop calculation baseline_kpis battery_kpis rest acc
        | _, _ => none
    | _, _ => none

/-- Simple-benefit branch of calculate_benefits: single KPI difference with
the same validity checks (`none` models the emitted NaN). -/
def simpleValue (defn : BenefitDef) (baseline_kpis battery_kpis : List (String × PyVal)) :
    Option ℚ :=
  match defn.baseline_kpi with
  | none => none
  | some key =>
    match baseline_kpis.lookup key, battery_kpis.lookup key with
    | some bv, some tv =>
      if isFalseVal bv || isFalseVal tv then none
      else
        match pyFloat bv, pyFloat tv with
        | some b, some t =>
          if defn.calculation = "baseline - battery" then some (b - t)
          else if defn.calculation = "battery - baseline" then some (t - b)
          else none
        | _, _ => none
    | _, _ => none

/-- Embedding of BenefitCalculator.calculate_benefits: one ordered entry per
benefit definition; `none` values model NaN. -/
def calculate_benefits (baseline_kpis battery_kpis : List (String × PyVal)) :
    List (String × Option ℚ) :=
  BENEFIT_DEFINITIONS.map (fun bd =>
    if bd.2.is_composite then
      (bd.1, compositeLoop bd.2.calculation baseline_kpis battery_kpis bd.2.component_kpis 0)
    else
      (bd.1, simpleValue bd.2 baseline_kpis battery_kpis))

/-- Validity of one side of a component difference, exactly as the code checks
it: the KPI is present, is not False, and float() succeeds on it. -/
def validFloat (m : List (String × PyVal)) (k : String) : Option ℚ :=
  match m.lookup k with
  | none => none
  | some v => if isFalseVal v then none else pyFloat v

theorem validFloat_some (m : List (String × PyVal)) (k : String) (q : ℚ)
    (h : validFloat m k = some q) :
    ∃ v, m.lookup k = some v ∧ isFalseVal v = false ∧ pyFloat v = some q := by
  unfold validFloat at h
  cases hv : m.lookup k with
  | none =>
    rw [hv] at h
    simp at h
  | some v =>
    rw [hv] at h
    by_cases hf : isFalseVal v = true
    · simp [hf] at h
    · refine ⟨v, rfl, by simpa using hf, ?_⟩
      simpa [hf] using h

theorem compositeLoop_step_valid (c : String) (bl bt : List (String × PyVal))
    (k : String) (rest : List String) (acc b t : ℚ)
    (hc : c = "baseline - battery")
    (h1 : validFloat bl k = some b) (h2 : validFloat bt k = some t) :
    compositeLoop c bl bt (k :: rest) acc = compositeLoop c bl bt rest (acc + (b - t)) := by
  obtain ⟨bv, hbv, hbf, hbq⟩ := validFloat_some bl k b h1
  obtain ⟨tv, htv, htf, htq⟩ := validFloat_some bt k t h2
  simp [compositeLoop, hbv, htv, hbf, htf, hbq, htq, hc]

theorem compositeLoop_step_invalid (c : String) (bl bt : List (String × PyVal))
    (k : String) (rest : List String) (acc : ℚ)
    (h : validFloat bl k = none ∨ validFloat bt k = none) :
    compositeLoop c bl bt (k :: rest) acc = none := by
  cases hbv : bl.lookup k with
  | none => simp [compositeLoop, hbv]
  | some bv =>
    cases htv : bt.lookup k with
    | none => simp [compositeLoop, hbv, htv]
    | some tv =>
      by_cases hbf : isFalseVal bv = true
      · simp [compositeLoop, hbv, htv, hbf]
      · by_cases htf : isFalseVal tv = true
        · simp [compositeLoop, hbv, htv, htf]
        · rcases h with h | h
          · unfold validFloat at h
            rw [hbv] at h
            simp only [hbf, Bool.false_eq_true, if_false] at h
            simp [compositeLoop, hbv, htv, h]
          · unfold validFloat at h
            rw [htv] at h
            simp only [htf, Bool.false_eq_true, if_false] at h
            cases hbq : pyFloat bv with
            | none => simp [compositeLoop, hbv, htv, hbf, htf, hbq]
            | some bq => simp [compositeLoop, hbv, htv, hbf, htf, hbq, h]

/-- The kpi_summary table restricted to one run's configs, viewed through its
UNIQUE(config_id, kpi_name) key as a finite map: key → (kpi_value, kpi_unit). -/
abbrev KpiTable : Type :=
  Nat × String → Option (ℚ × String)

/-- INSERT ... ON CONFLICT (config_id, kpi_name) DO UPDATE: point update of
the keyed map. -/
def upsertKpi (t : KpiTable) (key : Nat × String) (v : ℚ × String) : KpiTable :=
  Function.update t key (some v)

/-- One row of the benefits DataFrame as consumed by save_benefits_as_kpis:
the config id plus the benefit columns (a `some none` cell is a NaN benefit,
an absent name means row.get returns None, also skipped). -/
structure BenefitRow where
  config_id : Nat
  benefits : List (String × Option ℚ)
deriving DecidableEq

/-- benefit_columns = list(self.benefit_definitions.keys()). -/
def benefit_columns : List String :=
  BENEFIT_DEFINITIONS.map Prod.fst

/-- self.benefit_definitions[benefit_name]['unit']. -/
def unitOf (name : String) : String :=
  ((BENEFIT_DEFINITIONS.lookup name).map BenefitDef.unit).getD ""

/-- Body of the inner upsert loop of save_benefits_as_kpis: write the benefit
as a KPI row unless its value is NaN or missing. -/
def rowStep (row : BenefitRow) (acc : KpiTable) (name : String) : KpiTable :=
  match row.benefits.lookup name with
  | some (some v) => upsertKpi acc (row.config_id, name) (v, unitOf name)
  | _ => acc

/-- Inner loop of save_benefits_as_kpis over the benefit columns. -/
def colFold (row : BenefitRow) (l : List String) (acc : KpiTable) : KpiTable :=
  l.foldl (rowStep row) acc

/-- Embedding of save_benefits_as_kpis: upsert every non-NaN benefit of every
row into the KPI table. -/
def save_benefits_as_kpis (t : KpiTable) (rows : List BenefitRow) : KpiTable :=
  rows.foldl (fun acc row => colFold row benefit_columns acc) t

theorem upsert_apply_self (t : KpiTable) (k : Nat × String) (v : ℚ × String) :
    upsertKpi t k v k = some v := by
  simp [upsertKpi]

theorem upsert_apply_ne (t : KpiTable) (k k2 : Nat × String) (v : ℚ × String)
    (h : k2 ≠ k) : upsertKpi t k v k2 = t k2 := by
  simp [upsertKpi, Function.update_noteq h]

theorem rowStep_write (row : BenefitRow) (acc : KpiTable) (name : String) (v : ℚ)
    (h : row.benefits.lookup name = some (some v)) :
    rowStep row acc name = upsertKpi acc (row.config_id, name) (v, unitOf name) := by
  unfold rowStep
  rw [h]

theorem rowStep_skip_none (row : BenefitRow) (acc : KpiTable) (name : String)
    (h : row.benefits.lookup name = none) : rowStep row acc name = acc := by
  unfold rowStep
  rw [h]

theorem rowStep_skip_nan (row : BenefitRow) (acc : KpiTable) (name : String)
    (h : row.benefits.lookup name = some none) : rowStep row acc name = acc := by
  unfold rowStep
  rw [h]

theorem colFold_cons (row : BenefitRow) (n0 : String) (rest : List String) (acc : KpiTable) :
    colFold row (n0 :: rest) acc = colFold row rest (rowStep row acc n0) := rfl

theorem colFold_apply_no_write (row : BenefitRow) (l : List String) (acc : KpiTable)
    (k : Nat × String)
    (h : ∀ name ∈ l, ∀ v : ℚ, row.benefits.lookup name = some (some v) →
      (row.config_id, name) ≠ k) :
    colFold row l acc k = acc k := by
  induction l generalizing acc with
  | nil => rfl
  | cons n0 rest ih =>
    rw [colFold_cons, ih _ (fun nm hm => h nm (List.mem_cons_of_mem n0 hm))]
    cases hlv : row.benefits.lookup n0 with
    | none => rw [rowStep_skip_none row acc n0 hlv]
    | some o =>
      cases o with
      | none => rw [rowStep_skip_nan row acc n0 hlv]
      | some v =>
        rw [rowStep_write row acc n0 v hlv]
        exact upsert_apply_ne acc _ k _ (Ne.symm (h n0 (by simp) v hlv))

theorem colFold_apply_write (row : BenefitRow) (l : List String) :
    ∀ (acc : KpiTable) (name : String) (v : ℚ), l.Nodup → name ∈ l →
    row.benefits.lookup name = some (some v) →
    colFold row l acc (row.config_id, name) = some (v, unitOf name) := by
  induction l with
  | nil =>
    intro acc name v _ hmem _
    simp at hmem
  | cons n0 rest ih =>
    intro acc name v hnd hmem hv
    rw [colFold_cons]
    by_cases he : name = n0
    · subst he
      have hrest : name ∉ rest := (List.nodup_cons.mp hnd).1
      rw [colFold_apply_no_write row rest _ (row.config_id, name) ?_]
      · rw [rowStep_write row acc name v hv]
        exact upsert_apply_self acc _ _
      · intro nm hm w _ hk
        have hnm : nm = name := ((Prod.mk.injEq _ _ _ _).mp hk).2
        exact hrest (hnm ▸ hm)
    · exact ih (rowStep row acc n0) name v (List.nodup_cons.mp hnd).2
        ((List.mem_cons.mp hmem).resolve_left he) hv

theorem save_cons (t : KpiTable) (r0 : BenefitRow) (rest : List BenefitRow) :
    save_benefits_as_kpis t (r0 :: rest)
      = save_benefits_as_kpis (colFold r0 benefit_columns t) rest := rfl

theorem save_apply_no_write (rows : List BenefitRow) (t : KpiTable) (k : Nat × String)
    (h : ∀ row ∈ rows, ∀ name ∈ benefit_columns, ∀ v : ℚ,
      row.benefits.lookup name = some (some v) → (row.config_id, name) ≠ k) :
    save_benefits_as_kpis t rows k = t k := by
  induction rows generalizing t with
  | nil => rfl
  | cons r0 rest ih =>
    rw [save_cons, ih _ (fun row hrow => h row (List.mem_cons_of_mem r0 hrow))]
    exact colFold_apply_no_write r0 benefit_columns t k (h r0 (by simp))

theorem save_apply_write (rows : List BenefitRow) (row : BenefitRow)
    (name : String) (v : ℚ) :
    ∀ t : KpiTable, (rows.map BenefitRow.config_id).Nodup → row ∈ rows →
    name ∈ benefit_columns → row.benefits.lookup name = some (some v) →
    save_benefits_as_kpis t rows (row.config_id, name) = some (v, unitOf name) := by
  induction rows with
  | nil =>
    intro t _ hrow _ _
    simp at hrow
  | cons r0 rest ih =>
    intro t hnd hrow hname hv
    rw [List.map_cons] at hnd
    obtain ⟨hnotin, hndrest⟩ := List.nodup_cons.mp hnd
    rw [save_cons]
    rcases List.mem_cons.mp hrow with he | he
    · subst he
      rw [save_apply_no_write rest _ (row.config_id, name) ?_]
      · exact colFold_apply_write row benefit_columns t name v (by decide) hname hv
      · intro r2 hr2 nm _ w _ hk
        have hid : r2.config_id = row.config_id := ((Prod.mk.injEq _ _ _ _).mp hk).1
        exact hnotin (hid ▸ List.mem_map_of_mem BenefitRow.config_id hr2)
    · exact ih (colFold r0 benefit_columns t) hndrest he hname hv

theorem save_idem (t : KpiTable) (rows : List BenefitRow)
    (hnd : (rows.map BenefitRow.config_id).Nodup) :
    save_benefits_as_kpis (save_benefits_as_kpis t rows) rows
      = save_benefits_as_kpis t rows := by
  funext k
  obtain ⟨c, b⟩ := k
  by_cases hw : ∃ row ∈ rows, row.config_id = c ∧ b ∈ benefit_columns
      ∧ ∃ v : ℚ, row.benefits.lookup b = some (some v)
  · obtain ⟨row, hrow, hc, hb, v, hv⟩ := hw
    subst hc
    rw [save_apply_write rows row b v _ hnd hrow hb hv,
      save_apply_write rows row b v t hnd hrow hb hv]
  · push_neg at hw
    have hnw : ∀ row ∈ rows, ∀ name ∈ benefit_columns, ∀ v : ℚ,
        row.benefits.lookup name = some (some v) → (row.config_id, name) ≠ (c, b) := by
      intro row hrow name hname v hv hk
      have hc2 : row.config_id = c := ((Prod.mk.injEq _ _ _ _).mp hk).1
      have hb2 : name = b := ((Prod.mk.injEq _ _ _ _).mp hk).2
      exact hw row hrow hc2 (hb2 ▸ hname) v (hb2 ▸ hv)
    rw [save_apply_no_write rows _ _ hnw, save_apply_no_write rows t _ hnw]

end BenefitCalc

/-- C5: save_benefits_as_kpis upserts one KPI row per non-NaN benefit value
of its input rows (kpi_name = benefit name, kpi_value = the value, kpi_unit =
"EUR/year"), writes nothing for a NaN or missing benefit value, and re-running
it on the same input leaves the KPI table unchanged. -/
theorem c5_save_benefits_as_kpis (t : BenefitCalc.KpiTable)
    (rows : List BenefitCalc.BenefitRow)
    (hnd : (rows.map BenefitCalc.BenefitRow.config_id).Nodup) :
    (∀ row ∈ rows, ∀ name ∈ BenefitCalc.benefit_columns, ∀ v : ℚ,
        row.benefits.lookup name = some (some v) →
        BenefitCalc.save_benefits_as_kpis t rows (row.config_id, name)
          = some (v, BenefitCalc.unitOf name))
    ∧ (∀ c b, (∀ row ∈ rows, row.config_id = c →
          ∀ v : ℚ, row.benefits.lookup b ≠ some (some v)) →
        BenefitCalc.save_benefits_as_kpis t rows (c, b) = t (c, b))
    ∧ BenefitCalc.save_benefits_as_kpis (BenefitCalc.save_benefits_as_kpis t rows) rows
        = BenefitCalc.save_benefits_as_kpis t rows
    ∧ (∀ name ∈ BenefitCalc.benefit_columns, BenefitCalc.unitOf name = "EUR/year") := by
  refine ⟨?_, ?_, BenefitCalc.save_idem t rows hnd, by decide⟩
  · intro row hrow name hname v hv
    exact BenefitCalc.save_apply_write rows row name v t hnd hrow hname hv
  · intro c b h
    refine BenefitCalc.save_apply_no_write rows t (c, b) ?_
    intro row hrow name _ v hv hk
    have hc2 : row.config_id = c := ((Prod.mk.injEq _ _ _ _).mp hk).1
    have hb2 : name = b := ((Prod.mk.injEq _ _ _ _).mp hk).2
    exact h row hrow hc2 v (hb2 ▸ hv)

/-- Witness for C5: one row whose peak_shaving_benefit is 5 and whose
trading_revenue is NaN; the former is upserted with unit EUR/year, the latter
leaves the table entry untouched, and a second run changes nothing. -/
theorem c5_save_benefits_as_kpis_witness :
    (BenefitCalc.save_benefits_as_kpis (fun _ => none)
        [⟨1, [("peak_shaving_benefit", some 5), ("trading_revenue", none)]⟩]
        (1, "peak_shaving_benefit") = some (5, BenefitCalc.unitOf "peak_shaving_benefit"))
    ∧ (BenefitCalc.save_benefits_as_kpis (fun _ => none)
        [⟨1, [("peak_shaving_benefit", some 5), ("trading_revenue", none)]⟩]
        (1, "trading_revenue")
      = (fun _ => (none : Option (ℚ × String))) ((1, "trading_revenue") : Nat × String))
    ∧ BenefitCalc.save_benefits_as_kpis
        (BenefitCalc.save_benefits_as_kpis (fun _ => none)
          [⟨1, [("peak_shaving_benefit", some 5), ("trading_revenue", none)]⟩])
        [⟨1, [("peak_shaving_benefit", some 5), ("trading_revenue", none)]⟩]
      = BenefitCalc.save_benefits_as_kpis (fun _ => none)
        [⟨1, [("peak_shaving_benefit", some 5), ("trading_revenue", none)]⟩] :=
  ⟨(c5_save_benefits_as_kpis (fun _ => none)
      [⟨1, [("peak_shaving_benefit", some 5), ("trading_revenue", none)]⟩] (by decide)).1
    ⟨1, [("peak_shaving_benefit", some 5), ("trading_revenue", none)]⟩ (by decide)
    "peak_shaving_benefit" (by decide) 5 (by decide),
   (c5_save_benefits_as_kpis (fun _ => none)
      [⟨1, [("peak_shaving_benefit", some 5), ("trading_revenue", none)]⟩] (by decide)).2.1
    1 "trading_revenue"
    (by
      intro row hrow hc v hv
      rw [List.mem_singleton] at hrow
      subst hrow
      simp [List.lookup] at hv),
   (c5_save_benefits_as_kpis (fun _ => none)
      [⟨1, [("peak_shaving_benefit", some 5), ("trading_revenue", none)]⟩] (by decide)).2.2.1⟩

/-- C3: for every pair of KPI maps, calculate_benefits always produces a
trading_revenue entry without raising; when both component KPIs
(annual_total_energy_trade_cost_ia and _ic) are present, not the False
sentinel and float-convertible on both sides, it equals the sum of the two
baseline-minus-battery differences; when any one component is missing, False
or non-convertible on either side it is NaN — never a partial sum. -/
theorem c3_trading_revenue_composite (bl bt : List (String × BenefitCalc.PyVal)) :
    (((BenefitCalc.calculate_benefits bl bt).lookup "trading_revenue").isSome)
    ∧ (∀ b1 t1 b2 t2 : ℚ,
        BenefitCalc.validFloat bl "annual_total_energy_trade_cost_ia" = some b1 →
        BenefitCalc.validFloat bt "annual_total_energy_trade_cost_ia" = some t1 →
        BenefitCalc.validFloat bl "annual_total_energy_trade_cost_ic" = some b2 →
        BenefitCalc.validFloat bt "annual_total_energy_trade_cost_ic" = some t2 →
        (BenefitCalc.calculate_benefits bl bt).lookup "trading_revenue"
          = some (some ((b1 - t1) + (b2 - t2))))
    ∧ ((BenefitCalc.validFloat bl "annual_total_energy_trade_cost_ia" = none
        ∨ BenefitCalc.validFloat bt "annual_total_energy_trade_cost_ia" = none
        ∨ BenefitCalc.validFloat bl "annual_total_energy_trade_cost_ic" = none
        ∨ BenefitCalc.validFloat bt "annual_total_energy_trade_cost_ic" = none) →
        (BenefitCalc.calculate_benefits bl bt).lookup "trading_revenue" = some none) := by
  have hred : (BenefitCalc.calculate_benefits bl bt).lookup "trading_revenue"
      = some (BenefitCalc.compositeLoop "baseline - battery" bl bt
          ["annual_total_energy_trade_cost_ia", "annual_total_energy_trade_cost_ic"] 0) := rfl
  refine ⟨by rw [hred]; rfl, ?_, ?_⟩
  · intro b1 t1 b2 t2 h1 h2 h3 h4
    rw [hred,
      BenefitCalc.compositeLoop_step_valid _ bl bt _ _ _ b1 t1 rfl h1 h2,
      BenefitCalc.compositeLoop_step_valid _ bl bt _ _ _ b2 t2 rfl h3 h4]
    simp only [BenefitCalc.compositeLoop, Option.some_inj]
    ring_nf
  · intro h
    rcases h with h | h | h | h
    · rw [hred, BenefitCalc.compositeLoop_step_invalid _ bl bt _ _ _ (Or.inl h)]
    · rw [hred, BenefitCalc.compositeLoop_step_invalid _ bl bt _ _ _ (Or.inr h)]
    · rw [hred]
      cases hba : BenefitCalc.validFloat bl "annual_total_energy_trade_cost_ia" with
      | none => rw [BenefitCalc.compositeLoop_step_invalid _ bl bt _ _ _ (Or.inl hba)]
      | some b1 =>
        cases hbt : BenefitCalc.validFloat bt "annual_total_energy_trade_cost_ia" with
        | none => rw [BenefitCalc.compositeLoop_step_invalid _ bl bt _ _ _ (Or.inr hbt)]
        | some t1 =>
          rw [BenefitCalc.compositeLoop_step_valid _ bl bt _ _ _ b1 t1 rfl hba hbt,
            BenefitCalc.compositeLoop_step_invalid _ bl bt _ _ _ (Or.inl h)]
    · rw [hred]
      cases hba : BenefitCalc.validFloat bl "annual_total_energy_trade_cost_ia" with
      | none => rw [BenefitCalc.compositeLoop_step_invalid _ bl bt _ _ _ (Or.inl hba)]
      | some b1 =>
        cases hbt : BenefitCalc.validFloat bt "annual_total_energy_trade_cost_ia" with
        | none => rw [BenefitCalc.compositeLoop_step_invalid _ bl bt _ _ _ (Or.inr hbt)]
        | some t1 =>
          rw [BenefitCalc.compositeLoop_step_valid _ bl bt _ _ _ b1 t1 rfl hba hbt,
            BenefitCalc.compositeLoop_step_invalid _ bl bt _ _ _ (Or.inr h)]

/-- Witness for C3: a fully valid pair of maps sums both components, and the
spec's scenario — baseline lacking the IC component — yields NaN, not the
partial IA sum. -/
theorem c3_trading_revenue_composite_witness :
    ((BenefitCalc.calculate_benefits
        [("annual_total_energy_trade_cost_ia", .num 100),
         ("annual_total_energy_trade_cost_ic", .num 50)]
        [("annual_total_energy_trade_cost_ia", .num 40),
         ("annual_total_energy_trade_cost_ic", .num 30)]).lookup "trading_revenue"
      = some (some ((100 - 40) + (50 - 30))))
    ∧ ((BenefitCalc.calculate_benefits
        [("annual_total_energy_trade_cost_ia", .num 100)]
        [("annual_total_energy_trade_cost_ia", .num 40),
         ("annual_total_energy_trade_cost_ic", .num 30)]).lookup "trading_revenue"
      = some none) :=
  ⟨(c3_trading_revenue_composite
      [("annual_total_energy_trade_cost_ia", .num 100),
       ("annual_total_energy_trade_cost_ic", .num 50)]
      [("annual_total_energy_trade_cost_ia", .num 40),
       ("annual_total_energy_trade_cost_ic", .num 30)]).2.1 100 40 50 30
      (by decide) (by decide) (by decide) (by decide),
   (c3_trading_revenue_composite
      [("annual_total_energy_trade_cost_ia", .num 100)]
      [("annual_total_energy_trade_cost_ia", .num 40),
       ("annual_total_energy_trade_cost_ic", .num 30)]).2.2
      (Or.inr (Or.inr (Or.inl (by decide))))⟩

/-- C1 counterexample: a run whose single configuration is named "baseline"
(a word of the spec's vocabulary), is not flagged, and has capacity 5.  The
spec's rule accepts it as a candidate, but get_baseline_for_run reports not
found: the code's fallback vocabulary is only the 0kwh patterns. -/
theorem c1_counterexample :
    (([⟨1, "baseline", false, some 5⟩] : List BenefitCalc.BConfig).filter
        (fun c => c.is_baseline) = [])
    ∧ BenefitCalc.specFallbackPred ⟨1, "baseline", false, some 5⟩ = true
    ∧ BenefitCalc.get_baseline_for_run [⟨1, "baseline", false, some 5⟩] = none := by
  refine ⟨rfl, ?_, rfl⟩
  decide

/-- C1 (amended): in a run with no is_baseline flag, resolution selects a
configuration with capacity 0 or absent, or whose lowercased name contains
"0kwh", matches the LIKE pattern %0_kwh% (underscore = any one character), or
equals "0kwh"; the selected candidate has minimal capacity with nulls first
(tie order up to the engine); not found exactly when no configuration
satisfies this rule. -/
theorem c1_baseline_fallback_amended (configs : List BenefitCalc.BConfig)
    (hflag : configs.filter (fun c => c.is_baseline) = []) :
    (BenefitCalc.get_baseline_for_run configs = none
      ↔ configs.filter BenefitCalc.fallbackPred = [])
    ∧ (∀ cid, BenefitCalc.get_baseline_for_run configs = some cid →
        ∃ c ∈ configs.filter BenefitCalc.fallbackPred, c.config_id = cid
          ∧ ∀ d ∈ configs.filter BenefitCalc.fallbackPred,
              BenefitCalc.capLE c.battery_capacity_kwh d.battery_capacity_kwh = true) := by
  have hbase : BenefitCalc.get_baseline_for_run configs
      = (BenefitCalc.selectFirstMin BenefitCalc.capOrder
          (configs.filter BenefitCalc.fallbackPred)).map (fun c => c.config_id) := by
    unfold BenefitCalc.get_baseline_for_run
    rw [hflag]
    rfl
  constructor
  · rw [hbase, Option.map_eq_none', BenefitCalc.selectFirstMin_eq_none]
  · intro cid h
    rw [hbase] at h
    obtain ⟨c, hc, hcid⟩ := Option.map_eq_some'.mp h
    obtain ⟨hmem, hmin⟩ := BenefitCalc.selectFirstMin_spec BenefitCalc.capOrder
      (fun a b => BenefitCalc.capLE_total a.battery_capacity_kwh b.battery_capacity_kwh)
      (fun a b c h1 h2 =>
        BenefitCalc.capLE_trans a.battery_capacity_kwh b.battery_capacity_kwh
          c.battery_capacity_kwh h1 h2)
      _ c hc
    exact ⟨c, hmem, hcid, fun d hd => hmin d hd⟩

/-- Witness for C1 (amended): a flagless run where the 0kwh-named
configuration is resolved. -/
theorem c1_baseline_fallback_amended_witness :
    (BenefitCalc.get_baseline_for_run
        [⟨1, "batt_100kwh", false, some 100⟩, ⟨2, "batt_0kwh", false, some 0⟩] = none
      ↔ ([⟨1, "batt_100kwh", false, some 100⟩,
          ⟨2, "batt_0kwh", false, some 0⟩] : List BenefitCalc.BConfig).filter
            BenefitCalc.fallbackPred = [])
    ∧ (∀ cid, BenefitCalc.get_baseline_for_run
          [⟨1, "batt_100kwh", false, some 100⟩, ⟨2, "batt_0kwh", false, some 0⟩] = some cid →
        ∃ c ∈ ([⟨1, "batt_100kwh", false, some 100⟩,
            ⟨2, "batt_0kwh", false, some 0⟩] : List BenefitCalc.BConfig).filter
              BenefitCalc.fallbackPred, c.config_id = cid
          ∧ ∀ d ∈ ([⟨1, "batt_100kwh", false, some 100⟩,
              ⟨2, "batt_0kwh", false, some 0⟩] : List BenefitCalc.BConfig).filter
                BenefitCalc.fallbackPred,
              BenefitCalc.capLE c.battery_capacity_kwh d.battery_capacity_kwh = true) :=
  c1_baseline_fallback_amended
    [⟨1, "batt_100kwh", false, some 100⟩, ⟨2, "batt_0kwh", false, some 0⟩] (by decide)

/-- C7: for every non-empty numeric series with mean ≤ 0, the registered
custom aggregations "cv" and "peak_to_mean" evaluate to exactly 0 (never NaN,
never a division error); in particular "peak_to_mean" on [0,0,0] yields 0. -/
theorem c7_guarded_ratio_aggregations (pdStd pdSkew : List ℚ → Option ℚ)
    (s : List ℚ) (h1 : s ≠ []) (h2 : s.sum / (s.length : ℚ) ≤ 0) :
    (((TsAgg.CUSTOM_COLUMN_AGGREGATIONS pdStd pdSkew).lookup "cv").map (fun f => f s)
        = some (some 0))
    ∧ (((TsAgg.CUSTOM_COLUMN_AGGREGATIONS pdStd pdSkew).lookup "peak_to_mean").map (fun f => f s)
        = some (some 0))
    ∧ TsAgg.agg_peak_to_mean [0, 0, 0] = some 0 := by
  have hmean : TsAgg.meanOpt s = some (s.sum / (s.length : ℚ)) := by
    simp [TsAgg.meanOpt, h1]
  have hgt : TsAgg.gtZeroOpt (TsAgg.meanOpt s) = false := by
    rw [hmean]
    simp [TsAgg.gtZeroOpt]
    linarith
  refine ⟨?_, ?_, ?_⟩
  · simp [TsAgg.CUSTOM_COLUMN_AGGREGATIONS, List.lookup, TsAgg.agg_cv, hgt]
  · simp [TsAgg.CUSTOM_COLUMN_AGGREGATIONS, List.lookup, TsAgg.agg_peak_to_mean, hgt]
  · simp [TsAgg.agg_peak_to_mean, TsAgg.meanOpt, TsAgg.gtZeroOpt]

/-- Witness for C7 at the concrete series [0,0,0]. -/
theorem c7_guarded_ratio_aggregations_witness :
    (((TsAgg.CUSTOM_COLUMN_AGGREGATIONS (fun _ => none) (fun _ => none)).lookup "cv").map
        (fun f => f [0, 0, 0]) = some (some 0))
    ∧ (((TsAgg.CUSTOM_COLUMN_AGGREGATIONS (fun _ => none) (fun _ => none)).lookup "peak_to_mean").map
        (fun f => f [0, 0, 0]) = some (some 0))
    ∧ TsAgg.agg_peak_to_mean [0, 0, 0] = some 0 :=
  c7_guarded_ratio_aggregations (fun _ => none) (fun _ => none) [0, 0, 0]
    (by decide) (by norm_num)

/-- C10: when the requested column is not among the table's columns,
extract_column_features returns the empty feature dictionary — no NaN
placeholders for any requested stat, percentile or custom aggregation —
regardless of the skip_if_empty flag and of the names in the spec. -/
theorem c10_missing_column_empty_features (pdStd pdSkew pdKurt : List ℚ → Option ℚ)
    (df : TsAgg.TsDF) (column : String) (spec : TsAgg.ColSpec) (pre : String)
    (h : (df.map Prod.fst).contains column = false) :
    TsAgg.extract_column_features pdStd pdSkew pdKurt df column spec pre = [] := by
  simp only [TsAgg.extract_column_features, h, Bool.false_eq_true, if_false]

/-- Witness for C10: a concrete table without a "soc_percent" column yields no
features for that column even with skip_if_empty set to false. -/
theorem c10_missing_column_empty_features_witness :
    TsAgg.extract_column_features (fun _ => none) (fun _ => none) (fun _ => none)
      [("load_kwh", [some 1, some 2])] "soc_percent"
      ⟨["mean", "max"], [50], ["peak_to_mean"], false⟩ "" = [] :=
  c10_missing_column_empty_features (fun _ => none) (fun _ => none) (fun _ => none)
    [("load_kwh", [some 1, some 2])] "soc_percent"
    ⟨["mean", "max"], [50], ["peak_to_mean"], false⟩ "" (by decide)

namespace Training

/-- Rows surviving the NaN-target mask of train_single_model, paired with
their client group label: mask = ~y.isna(), applied to y and groups alike. -/
def cleanPairs (y : List (Option ℚ)) (gs : List String) : List (ℚ × String) :=
  (y.zip gs).filterMap (fun p => p.1.map (fun q => (q, p.2)))

/-- groups_clean.nunique(). -/
def nGroups (rows : List (ℚ × String)) : Nat :=
  (rows.map Prod.snd).dedup.length

/-- Contract of sklearn GroupShuffleSplit(n_splits = 1): `pick` abstracts the
seeded shuffle choosing the test groups from the distinct group labels; the
test partition holds exactly the rows whose group was picked, the train
partition the rest. -/
def groupShuffleSplit (pick : List String → List String) (rows : List (ℚ × String)) :
    List (ℚ × String) × List (ℚ × String) :=
  (rows.filter (fun r => !((pick ((rows.map Prod.snd).dedup)).contains r.2)),
   rows.filter (fun r => (pick ((rows.map Prod.snd).dedup)).contains r.2))

/-- Split logic of train_single_model when a groups series is supplied:
use_group_split activates on ≥ 2 distinct groups among the masked rows,
otherwise the plain random split (`randSplit` abstracts sklearn
train_test_split's shuffled partition). -/
def train_single_model_split (pick : List String → List String)
    (randSplit : List (ℚ × String) → List (ℚ × String) × List (ℚ × String))
    (y : List (Option ℚ)) (gs : List String) :
    List (ℚ × String) × List (ℚ × String) :=
  if 2 ≤ nGroups (cleanPairs y gs) then groupShuffleSplit pick (cleanPairs y gs)
  else randSplit (cleanPairs y gs)

end Training

/-- C8: whenever the supplied client_name groups have at least 2 distinct
values among the rows with non-missing target, the split of
train_single_model is group-aware: no client name appears in both the train
and the test partition, whatever the shuffled group choice and whatever the
fallback random split would have done. -/
theorem c8_group_aware_split (pick : List String → List String)
    (randSplit : List (ℚ × String) → List (ℚ × String) × List (ℚ × String))
    (y : List (Option ℚ)) (gs : List String)
    (h : 2 ≤ Training.nGroups (Training.cleanPairs y gs)) :
    ∀ g : String,
      g ∈ (Training.train_single_model_split pick randSplit y gs).1.map Prod.snd →
      g ∉ (Training.train_single_model_split pick randSplit y gs).2.map Prod.snd := by
  intro g hg hg2
  unfold Training.train_single_model_split at hg hg2
  rw [if_pos h] at hg hg2
  unfold Training.groupShuffleSplit at hg hg2
  obtain ⟨r, hr, hrg⟩ := List.mem_map.mp hg
  obtain ⟨r2, hr2, hrg2⟩ := List.mem_map.mp hg2
  have hp := (List.mem_filter.mp hr).2
  have hp2 := (List.mem_filter.mp hr2).2
  rw [hrg] at hp
  rw [hrg2] at hp2
  rw [hp2] at hp
  simp at hp

/-- Witness for C8: two clients "a" and "b" with valid targets; with the
shuffle picking "a" as the test group, client "b" sits in train and not in
test. -/
theorem c8_group_aware_split_witness :
    "b" ∉ (Training.train_single_model_split (fun l => l.take 1)
        (fun r => ([], r)) [some 1, some 2] ["a", "b"]).2.map Prod.snd :=
  c8_group_aware_split (fun l => l.take 1) (fun r => ([], r))
    [some 1, some 2] ["a", "b"] (by decide) "b" (by decide)
